import Mathlib

/-!
Verification of the `winix` traceroute prober (`src/traceroute.rs`),
a shallow embedding of `resolve_host` and `run_traceroute_unix`.

Modelling conventions:
* machine integers are `Nat`; 16-bit wraparound is explicit `% 65536`;
* a received datagram is a `List Nat` of bytes;
* a slice index that Rust would panic on (index out of bounds, or an
  overflowing `+` under debug overflow checks) is modelled by `Option`,
  with `none` standing for the panic/fault;
* printing is modelled as a list of `Token`s, one per printed field.
-/

namespace Winix

/-- Address as seen by the prober: `std::net::IpAddr`, with the payload
abstracted to a `Nat` identifier (address equality is all the code uses). -/
inductive IpAddr where
  | v4 : Nat → IpAddr
  | v6 : Nat → IpAddr
deriving DecidableEq, Repr

/-- Embedding of `resolve_host` (traceroute.rs lines 16-22) applied to the
address list produced by `to_socket_addrs`: `iter.find_map` keeps the first
entry whose family is IPv4 and maps everything else to `None`. -/
def resolve_host (addrs : List IpAddr) : Option IpAddr :=
  addrs.findSome? fun a =>
    match a with
    | IpAddr.v4 v => some (IpAddr.v4 v)
    | _ => none

/-- Embedding of `resolve_host` including the `Err(_) => None` arm of the
`to_socket_addrs` match: `none` input models resolution failing outright. -/
def resolve_host_full (res : Option (List IpAddr)) : Option IpAddr :=
  match res with
  | none => none
  | some addrs => resolve_host addrs

/-- The three ways `run_traceroute_unix` can start (traceroute.rs lines
43-53): run the trace with a v4 payload, print the IPv6-unsupported
diagnostic, or print the generic resolution-failure diagnostic. -/
inductive StartOutcome where
  | run : Nat → StartOutcome
  | ipv6Diagnostic : StartOutcome
  | resolveFailure : StartOutcome
deriving DecidableEq, Repr

/-- Embedding of the `match resolve_host(host)` dispatch at the top of
`run_traceroute_unix` (traceroute.rs lines 43-53). -/
def startTrace (res : Option IpAddr) : StartOutcome :=
  match res with
  | some (IpAddr.v4 v) => StartOutcome.run v
  | some _ => StartOutcome.ipv6Diagnostic
  | none => StartOutcome.resolveFailure

/-- What the environment does for one probe (one iteration of the
`for p in 0..probes` loop, traceroute.rs lines 75-138):
* `sendErr`: `send_to` fails (line 82);
* `timeout`: the raw-socket `recv` returns `Err` (line 133);
* `recv bytes elapsed followUp`: `recv` returns `Ok(n)` with datagram
  `bytes` (so `n = bytes.length`), `elapsed` milliseconds on the clock at
  that moment, and `followUp` describing the second `recv_from` call
  (line 110): `some (addr, ms2)` if it succeeds with source `addr` at
  `ms2` milliseconds, `none` if it returns `Err`. -/
inductive ProbeEvent where
  | sendErr : ProbeEvent
  | timeout : ProbeEvent
  | recv : List Nat → Nat → Option (IpAddr × Nat) → ProbeEvent
deriving DecidableEq, Repr

/-- One probe iteration (traceroute.rs lines 75-138) as a function from the
probe's event to the pair pushed onto `hop_ips` and `rtts`, or `none` when
the iteration panics. Branch by branch:
* send error (lines 82-87): push `(None, None)` and continue;
* timeout (lines 133-137): push `(None, None)`;
* `Ok(n)` with `n < 1` (lines 98-102): push `(None, Some elapsed)`;
* `Ok(n)` with `n ≥ ip_header_len + 1` (lines 104-127): read
  `slice[ip_header_len]` and `slice[ip_header_len + 1]` — the second read
  is out of bounds (a panic, modelled `none`) exactly when
  `n = ip_header_len + 1`; otherwise the ICMP type/code values are bound
  but the `if` chain on them (lines 115-121) has empty bodies, so they
  influence nothing; then the second `recv_from` either yields
  `(Some addr, Some ms2)` (lines 111-114) or `(None, Some elapsed)`
  (lines 123-126);
* `Ok(n)` with `1 ≤ n < ip_header_len + 1` (lines 128-131): push
  `(None, Some elapsed)`.
`ip_header_len` is the low nibble of byte 0 times 4 (line 103). -/
def probeStep (ev : ProbeEvent) : Option (Option IpAddr × Option Nat) :=
  match ev with
  | ProbeEvent.sendErr => some (none, none)
  | ProbeEvent.timeout => some (none, none)
  | ProbeEvent.recv bytes elapsed followUp =>
    match bytes.get? 0 with
    | none => some (none, some elapsed)
    | some b0 =>
      let ip_header_len := (b0 % 16) * 4
      if ip_header_len + 1 ≤ bytes.length then
        match bytes.get? ip_header_len, bytes.get? (ip_header_len + 1) with
        | some _icmp_type, some _icmp_code =>
          match followUp with
          | some (addr, ms2) => some (some addr, some ms2)
          | none => some (none, some elapsed)
        | _, _ => none
      else
        some (none, some elapsed)

/-- The whole probe loop for one hop (traceroute.rs lines 72-139): starting
from empty `hop_ips` and `rtts`, run one `probeStep` per probe event and
collect the two vectors in order; `none` if any iteration panics. -/
def runHop (events : List ProbeEvent) :
    Option (List (Option IpAddr) × List (Option Nat)) :=
  match events with
  | [] => some ([], [])
  | ev :: rest =>
    match probeStep ev with
    | none => none
    | some (a, r) =>
      match runHop rest with
      | none => none
      | some (as_, rs) => some (a :: as_, r :: rs)

/-- A printed field of the trace output. -/
inductive Token where
  | ttl : Nat → Token
  | addr : IpAddr → Token
  | rtt : Nat → Token
  | star : Token
  | reached : Token
deriving DecidableEq, Repr

/-- The hop-result print loop (traceroute.rs lines 143-158), over the two
per-hop vectors zipped into pairs (they have equal length, one entry per
probe). The accumulator is the mutable `printed_addr`. Returns the printed
tokens and the final value of `printed_addr` (used by the termination
check at lines 163-168). Per iteration: if `hop_ips[i]` is `Some ip`, print
the address the first time only (and latch `printed_addr`), then print the
RTT or `*`; if `hop_ips[i]` is `None`, print `*`. -/
def printHop (ps : List (Option IpAddr × Option Nat)) (pa : Option IpAddr) :
    List Token × Option IpAddr :=
  match ps with
  | [] => ([], pa)
  | (some ip, rt) :: rest =>
    let newPa := match pa with
      | none => some ip
      | some a => some a
    let here :=
      (match pa with
       | none => [Token.addr ip]
       | some _ => []) ++
      [match rt with
       | some ms => Token.rtt ms
       | none => Token.star]
    let tail := printHop rest newPa
    (here ++ tail.1, tail.2)
  | (none, _) :: rest =>
    let tail := printHop rest pa
    (Token.star :: tail.1, tail.2)

/-- The full printed line for one hop: the TTL (line 71) followed by the
print loop's output. -/
def hopLineTokens (ttl : Nat) (ps : List (Option IpAddr × Option Nat)) :
    List Token :=
  Token.ttl ttl :: (printHop ps none).1

/-- The TTL loop of `run_traceroute_unix` (traceroute.rs lines 68-171),
driven by one list of probe events per hop. `fuel` is the number of TTL
values left (initially `max_hops`), `ttl` the current TTL. Each iteration
runs the hop's probes, prints the hop line, and — if the final
`printed_addr` equals the destination (lines 163-168) — prints
"Reached destination." and breaks. A panic inside a hop gives `none`. -/
def runTraceFrom (dest : IpAddr) (ttl : Nat) (fuel : Nat)
    (env : List (List ProbeEvent)) : Option (List Token) :=
  match fuel, env with
  | 0, _ => some []
  | _ + 1, [] => some []
  | fuel + 1, hopEv :: rest =>
    match runHop hopEv with
    | none => none
    | some (as_, rs) =>
      let printed := printHop (as_.zip rs) none
      let line := Token.ttl ttl :: printed.1
      if printed.2 = some dest then
        some (line ++ [Token.reached])
      else
        match runTraceFrom dest (ttl + 1) fuel rest with
        | none => none
        | some out => some (line ++ out)

/-- The whole trace: TTLs 1 through `max_hops`. -/
def runTrace (dest : IpAddr) (max_hops : Nat)
    (env : List (List ProbeEvent)) : Option (List Token) :=
  runTraceFrom dest 1 max_hops env

/-- The per-hop port advance, `dst_port.wrapping_add(probes as u16)`
(traceroute.rs line 170): `as u16` truncates and `wrapping_add` wraps,
both modulo 2^16. -/
def advance_port (dst_port probes : Nat) : Nat :=
  (dst_port + probes % 65536) % 65536

/-- Value of `dst_port` after `n` hop advances; hop with TTL `h` is probed
with `dst_port_at start_port probes (h - 1)` (the advance runs at the end
of each loop iteration, line 170, after `dst_port = start_port`, line 66). -/
def dst_port_at (start_port probes : Nat) : Nat → Nat
  | 0 => start_port
  | n + 1 => advance_port (dst_port_at start_port probes n) probes

/-- The per-probe port computation `dst_port + (p as u16)` (traceroute.rs
line 76) under Rust's checked-overflow semantics of `+` (the default in
debug builds): `none` models the overflow panic. `as u16` truncates. -/
def probe_port_checked (dst_port p : Nat) : Option Nat :=
  if dst_port + p % 65536 < 65536 then some (dst_port + p % 65536) else none

/-- The same computation under release semantics, where `+` wraps
modulo 2^16. -/
def probe_port_wrapping (dst_port p : Nat) : Nat :=
  (dst_port + p % 65536) % 65536

/-- Whether an address is IPv4. -/
def isV4 : IpAddr → Bool
  | IpAddr.v4 _ => true
  | _ => false

/-- Modelled from the spec: the hop-line format described in §4.2 step 3
and §6 — first the TTL, then the representative address (the first probe
outcome carrying a source address) or a single `*` if none, then one
RTT-or-`*` entry per probe. Written from the spec's words, to be compared
against `hopLineTokens`, which embeds the code's print loop. -/
def specHopLineTokens (ttl : Nat) (ps : List (Option IpAddr × Option Nat)) :
    List Token :=
  Token.ttl ttl ::
    (match ps.findSome? Prod.fst with
     | some a => Token.addr a
     | none => Token.star) ::
    ps.map fun p =>
      match p with
      | (some _, some ms) => Token.rtt ms
      | _ => Token.star

/-- Two probe events that agree on everything the code can observe except
possibly the ICMP type and code byte values: same constructor, same
datagram length, same header-length nibble of byte 0, same elapsed time
and same follow-up receive result. The datagram bytes at the ICMP type and
code positions (indices `ip_header_len` and `ip_header_len + 1`) are free
to differ, as are any other bytes the code never reads. -/
def eventMatch : ProbeEvent → ProbeEvent → Bool
  | ProbeEvent.sendErr, ProbeEvent.sendErr => true
  | ProbeEvent.timeout, ProbeEvent.timeout => true
  | ProbeEvent.recv b1 e1 f1, ProbeEvent.recv b2 e2 f2 =>
    b1.length == b2.length &&
    (b1.get? 0).map (fun b => b % 16) == (b2.get? 0).map (fun b => b % 16) &&
    e1 == e2 && f1 == f2
  | _, _ => false

/-- Pointwise `eventMatch` over a hop's probe events. -/
def hopMatch : List ProbeEvent → List ProbeEvent → Bool
  | [], [] => true
  | e1 :: r1, e2 :: r2 => eventMatch e1 e2 && hopMatch r1 r2
  | _, _ => false

/-- Pointwise `hopMatch` over a whole trace environment. -/
def envMatch : List (List ProbeEvent) → List (List ProbeEvent) → Bool
  | [], [] => true
  | h1 :: r1, h2 :: r2 => hopMatch h1 h2 && envMatch r1 r2
  | _, _ => false

/-! Helper lemmas. -/

/-- Each non-panicking probe iteration pushes exactly one entry onto each
of the two per-hop vectors, so a completed hop run yields vectors of the
same length as its event list. -/
theorem runHop_lengths (evs : List ProbeEvent) (as_ : List (Option IpAddr))
    (rs : List (Option Nat)) (h : runHop evs = some (as_, rs)) :
    as_.length = evs.length ∧ rs.length = evs.length := by
  induction evs generalizing as_ rs with
  | nil =>
    simp only [runHop, Option.some.injEq, Prod.mk.injEq] at h
    simp [← h.1, ← h.2]
  | cons ev rest ih =>
    simp only [runHop] at h
    cases hps : probeStep ev with
    | none => rw [hps] at h; simp at h
    | some pr =>
      rw [hps] at h
      cases hrr : runHop rest with
      | none => rw [hrr] at h; simp at h
      | some prs =>
        rw [hrr] at h
        obtain ⟨a, r⟩ := pr
        obtain ⟨as2, rs2⟩ := prs
        simp only [Option.some.injEq, Prod.mk.injEq] at h
        obtain ⟨ha, hr⟩ := h
        obtain ⟨ih1, ih2⟩ := ih as2 rs2 hrr
        subst ha hr
        simp [ih1, ih2]

/-- Closed form of the wrapping per-hop port state after `n` advances. -/
theorem dst_port_at_spec (start_port probes : Nat) (hs : start_port < 65536) :
    ∀ n, dst_port_at start_port probes n = (start_port + n * probes) % 65536 := by
  intro n
  induction n with
  | zero => simp [dst_port_at, Nat.mod_eq_of_lt hs]
  | succ n ih =>
    simp only [dst_port_at, advance_port, ih, Nat.succ_mul, ← Nat.add_assoc]
    generalize start_port + n * probes = m
    omega

/-- The wrapping port state never leaves the 16-bit range. -/
theorem dst_port_at_lt (start_port probes n : Nat) (hs : start_port < 65536) :
    dst_port_at start_port probes n < 65536 := by
  rw [dst_port_at_spec start_port probes hs n]
  exact Nat.mod_lt _ (by norm_num)

/-- Base-`p` positional uniqueness: `a * p + x` with `x < p` determines
`a` and `x`. -/
theorem mul_add_inj (p a b x y : Nat) (hx : x < p) (hy : y < p)
    (h : a * p + x = b * p + y) : a = b ∧ x = y := by
  rcases Nat.lt_trichotomy a b with hab | hab | hab
  · exfalso
    have h1 : a * p + x < (a + 1) * p := by rw [Nat.succ_mul]; omega
    have h2 : (a + 1) * p ≤ b * p := Nat.mul_le_mul_right p hab
    omega
  · subst hab; omega
  · exfalso
    have h1 : b * p + y < (b + 1) * p := by rw [Nat.succ_mul]; omega
    have h2 : (b + 1) * p ≤ a * p := Nat.mul_le_mul_right p hab
    omega

/-- When the whole trace's port range fits in 16 bits, the probe-port
computation does not overflow even under checked semantics, and computes
the exact offset formula. -/
theorem probe_port_in_range (start_port probes max_hops h j : Nat)
    (hstart : start_port < 65536)
    (hfit : start_port + max_hops * probes ≤ 65536)
    (hh : 1 ≤ h) (hhm : h ≤ max_hops) (hj : j < probes) :
    probe_port_checked (dst_port_at start_port probes (h - 1)) j =
      some (start_port + (h - 1) * probes + j) ∧
    start_port + (h - 1) * probes + j < 65536 := by
  have hstep : (h - 1) * probes + probes = h * probes := by
    cases h with
    | zero => omega
    | succ k => simp [Nat.succ_sub_one, Nat.succ_mul]
  have hmono : h * probes ≤ max_hops * probes := Nat.mul_le_mul_right probes hhm
  have hbound : start_port + (h - 1) * probes + j < 65536 := by omega
  have hj16 : j < 65536 := by omega
  have hd : dst_port_at start_port probes (h - 1) = start_port + (h - 1) * probes := by
    rw [dst_port_at_spec start_port probes hstart]
    exact Nat.mod_eq_of_lt (by omega)
  refine ⟨?_, hbound⟩
  rw [hd]
  simp only [probe_port_checked, Nat.mod_eq_of_lt hj16]
  rw [if_pos (by omega)]

/-- Closed form of `probeStep` on a received datagram, in terms of the
datagram length and the header-length nibble only (plus the follow-up
receive); the ICMP type and code byte values do not appear. -/
theorem probeStep_recv_closed (bytes : List Nat) (e : Nat)
    (fu : Option (IpAddr × Nat)) :
    probeStep (ProbeEvent.recv bytes e fu) =
      if bytes.length = 0 then some (none, some e)
      else if (bytes.getD 0 0 % 16) * 4 + 2 ≤ bytes.length then
        match fu with
        | some (addr, ms2) => some (some addr, some ms2)
        | none => some (none, some e)
      else if (bytes.getD 0 0 % 16) * 4 + 1 ≤ bytes.length then none
      else some (none, some e) := by
  cases bytes with
  | nil => simp [probeStep]
  | cons b0 rest =>
    have hne : ¬((b0 :: rest).length = 0) := by simp
    have hL : (b0 :: rest).length = rest.length + 1 := by simp
    rw [if_neg hne, List.getD_cons_zero]
    simp only [probeStep, List.get?]
    by_cases h2 : b0 % 16 * 4 + 2 ≤ (b0 :: rest).length
    · rw [if_pos h2, if_pos (show b0 % 16 * 4 + 1 ≤ (b0 :: rest).length by omega)]
      cases hc1 : (b0 :: rest).get? (b0 % 16 * 4) with
      | none =>
        exfalso; rw [List.get?_eq_none] at hc1; omega
      | some t =>
        cases hc2 : rest.get? (b0 % 16 * 4) with
        | none =>
          exfalso; rw [List.get?_eq_none] at hc2; omega
        | some c => rfl
    · rw [if_neg h2]
      by_cases h1 : b0 % 16 * 4 + 1 ≤ (b0 :: rest).length
      · rw [if_pos h1, if_pos h1]
        have hg2 : rest.get? (b0 % 16 * 4) = none :=
          List.get?_len_le (by omega)
        cases hc1 : (b0 :: rest).get? (b0 % 16 * 4) with
        | none =>
          exfalso; rw [List.get?_eq_none] at hc1; omega
        | some t => rw [hg2]
      · rw [if_neg h1, if_neg h1]

/-- The outcome of a probe iteration is unchanged by altering datagram
bytes other than the length and the header-length nibble — in particular
by altering the ICMP type and code bytes. -/
theorem probeStep_recv_congr (b1 b2 : List Nat) (e : Nat)
    (fu : Option (IpAddr × Nat)) (hlen : b1.length = b2.length)
    (hb0 : (b1.get? 0).map (fun b => b % 16) = (b2.get? 0).map (fun b => b % 16)) :
    probeStep (ProbeEvent.recv b1 e fu) = probeStep (ProbeEvent.recv b2 e fu) := by
  rw [probeStep_recv_closed, probeStep_recv_closed, hlen]
  by_cases h0 : b2.length = 0
  · rw [if_pos h0, if_pos h0]
  · have hnib : b1.getD 0 0 % 16 = b2.getD 0 0 % 16 := by
      cases hb1 : b1 with
      | nil => rw [hb1] at hlen; simp at hlen; omega
      | cons x xs =>
        cases hb2 : b2 with
        | nil => simp [hb2] at h0
        | cons y ys =>
          rw [hb1, hb2] at hb0
          simp only [List.get?, Option.map_some'] at hb0
          simpa using hb0
    rw [hnib]

/-- A run of address-free probes prints one `*` per probe and leaves
`printed_addr` untouched, after which printing continues on the rest. -/
theorem printHop_none_run (ps1 ps2 : List (Option IpAddr × Option Nat))
    (pa : Option IpAddr) (h : ∀ p ∈ ps1, p.1 = none) :
    printHop (ps1 ++ ps2) pa =
      (List.replicate ps1.length Token.star ++ (printHop ps2 pa).1,
       (printHop ps2 pa).2) := by
  induction ps1 with
  | nil => simp
  | cons p rest ih =>
    obtain ⟨pf, pr⟩ := p
    have hpf : pf = none := h (pf, pr) (by simp)
    subst hpf
    have ih2 := ih fun q hq => h q (by simp [hq])
    simp [printHop, ih2, List.replicate_succ]

/-- Once `printed_addr` is latched it stays latched. -/
theorem printHop_snd_some (ps : List (Option IpAddr × Option Nat)) (a : IpAddr) :
    (printHop ps (some a)).2 = some a := by
  induction ps with
  | nil => rfl
  | cons p rest ih =>
    obtain ⟨pf, pr⟩ := p
    cases pf with
    | none => simpa [printHop] using ih
    | some ip => simpa [printHop] using ih

/-- The final value of `printed_addr` is the first probe outcome carrying
a source address. -/
theorem printHop_snd_none (ps : List (Option IpAddr × Option Nat)) :
    (printHop ps none).2 = ps.findSome? Prod.fst := by
  induction ps with
  | nil => rfl
  | cons p rest ih =>
    obtain ⟨pf, pr⟩ := p
    cases pf with
    | none => simpa [printHop, List.findSome?] using ih
    | some ip => simp [printHop, List.findSome?, printHop_snd_some]

/-- A list with no IPv4 entry resolves to nothing. -/
theorem resolve_host_none (addrs : List IpAddr)
    (h : ∀ a ∈ addrs, isV4 a = false) : resolve_host addrs = none := by
  induction addrs with
  | nil => rfl
  | cons a rest ih =>
    cases ha : a with
    | v4 v => have := h a (by simp); rw [ha] at this; simp [isV4] at this
    | v6 v =>
      have htl : resolve_host rest = none := ih fun x hx => h x (by simp [hx])
      simp only [resolve_host, List.findSome?] at htl ⊢
      simpa using htl

/-- Whatever `resolve_host` returns came through the IPv4-only filter. -/
theorem resolve_host_is_v4 (addrs : List IpAddr) (a : IpAddr)
    (h : resolve_host addrs = some a) : ∃ v, a = IpAddr.v4 v := by
  induction addrs with
  | nil => simp [resolve_host, List.findSome?] at h
  | cons x rest ih =>
    cases hx : x with
    | v4 v =>
      rw [hx] at h
      simp only [resolve_host, List.findSome?] at h
      exact ⟨v, by simpa using h.symm⟩
    | v6 v =>
      rw [hx] at h
      simp only [resolve_host, List.findSome?] at h
      exact ih (by simpa [resolve_host] using h)

/-- Matching probe events produce the same pushed pair (or the same
panic). -/
theorem eventMatch_probeStep (e1 e2 : ProbeEvent)
    (h : eventMatch e1 e2 = true) : probeStep e1 = probeStep e2 := by
  cases e1 with
  | sendErr =>
    cases e2 with
    | sendErr => rfl
    | timeout => simp [eventMatch] at h
    | recv b e f => simp [eventMatch] at h
  | timeout =>
    cases e2 with
    | sendErr => simp [eventMatch] at h
    | timeout => rfl
    | recv b e f => simp [eventMatch] at h
  | recv b1 t1 f1 =>
    cases e2 with
    | sendErr => simp [eventMatch] at h
    | timeout => simp [eventMatch] at h
    | recv b2 t2 f2 =>
      simp only [eventMatch, Bool.and_eq_true, beq_iff_eq] at h
      obtain ⟨⟨⟨hlen, hb0⟩, he⟩, hf⟩ := h
      subst he
      subst hf
      exact probeStep_recv_congr b1 b2 _ _ hlen hb0

/-- Matching hop event lists run to the same pair of vectors. -/
theorem hopMatch_runHop (l1 l2 : List ProbeEvent)
    (h : hopMatch l1 l2 = true) : runHop l1 = runHop l2 := by
  induction l1 generalizing l2 with
  | nil =>
    cases l2 with
    | nil => rfl
    | cons x xs => simp [hopMatch] at h
  | cons e1 r1 ih =>
    cases l2 with
    | nil => simp [hopMatch] at h
    | cons e2 r2 =>
      simp only [hopMatch, Bool.and_eq_true] at h
      simp only [runHop]
      rw [eventMatch_probeStep e1 e2 h.1, ih r2 h.2]

/-- Matching environments drive the TTL loop to the same output. -/
theorem envMatch_runTraceFrom (dest : IpAddr) (ttl fuel : Nat)
    (env1 env2 : List (List ProbeEvent)) (h : envMatch env1 env2 = true) :
    runTraceFrom dest ttl fuel env1 = runTraceFrom dest ttl fuel env2 := by
  induction fuel generalizing ttl env1 env2 with
  | zero => rfl
  | succ fuel ih =>
    cases env1 with
    | nil =>
      cases env2 with
      | nil => rfl
      | cons x xs => simp [envMatch] at h
    | cons hop1 r1 =>
      cases env2 with
      | nil => simp [envMatch] at h
      | cons hop2 r2 =>
        simp only [envMatch, Bool.and_eq_true] at h
        simp only [runTraceFrom]
        rw [hopMatch_runHop hop1 hop2 h.1, ih (ttl + 1) r1 r2 h.2]

/-! Claim theorems. -/

/-- Claim C1: whenever the hop just probed ends with `printed_addr` — the
first probe outcome carrying a source address — equal to the resolved
destination IPv4 address, the loop prints the "Reached destination."
token after the hop line and stops: the trace output is fully determined
by that hop, for every remaining environment `rest`, so no higher-TTL hop
is ever probed. The hypothesis is only the address match: the theorem
holds for every hop event list with that representative address, whatever
the ICMP type or code bytes of its datagrams were. -/
theorem early_termination_on_dest_match (d : Nat) (ttl fuel : Nat)
    (hopEv : List ProbeEvent) (rest : List (List ProbeEvent))
    (as_ : List (Option IpAddr)) (rs : List (Option Nat))
    (hrun : runHop hopEv = some (as_, rs))
    (hrep : (printHop (as_.zip rs) none).2 = some (IpAddr.v4 d)) :
    (printHop (as_.zip rs) none).2 = (as_.zip rs).findSome? Prod.fst ∧
    runTraceFrom (IpAddr.v4 d) ttl (fuel + 1) (hopEv :: rest) =
      some ((Token.ttl ttl :: (printHop (as_.zip rs) none).1) ++
        [Token.reached]) := by
  refine ⟨printHop_snd_none _, ?_⟩
  simp only [runTraceFrom, hrun]
  rw [if_pos hrep]

/-- Witness for C1: a one-probe hop answered by the destination
terminates the trace at TTL 1 even though two more hops of environment
are available. -/
theorem early_termination_on_dest_match_w :
    (printHop (([some (IpAddr.v4 9)] : List (Option IpAddr)).zip
        ([some 5] : List (Option Nat))) none).2 =
      (([some (IpAddr.v4 9)] : List (Option IpAddr)).zip
        ([some 5] : List (Option Nat))).findSome? Prod.fst ∧
    runTraceFrom (IpAddr.v4 9) 1 (2 + 1)
        ([ProbeEvent.recv (List.replicate 28 69) 7 (some (IpAddr.v4 9, 5))] ::
          [[ProbeEvent.timeout], [ProbeEvent.timeout]]) =
      some ((Token.ttl 1 :: (printHop (([some (IpAddr.v4 9)] :
          List (Option IpAddr)).zip ([some 5] : List (Option Nat))) none).1) ++
        [Token.reached]) :=
  early_termination_on_dest_match 9 1 2
    [ProbeEvent.recv (List.replicate 28 69) 7 (some (IpAddr.v4 9, 5))]
    [[ProbeEvent.timeout], [ProbeEvent.timeout]]
    [some (IpAddr.v4 9)] [some 5] (by decide) (by decide)

/-- Claim C2: when the 16-bit port space does not wrap
(`start_port + max_hops * probes ≤ 65536`), probe `j` of the hop with TTL
`h` is sent to port `start_port + (h - 1) * probes + j` (and the checked
addition of line 76 cannot overflow), and distinct probes of the trace
always use distinct destination ports. -/
theorem probe_ports_disjoint (start_port probes max_hops h1 j1 h2 j2 : Nat)
    (hstart : start_port < 65536)
    (hfit : start_port + max_hops * probes ≤ 65536)
    (hh1 : 1 ≤ h1) (hh1m : h1 ≤ max_hops) (hj1 : j1 < probes)
    (hh2 : 1 ≤ h2) (hh2m : h2 ≤ max_hops) (hj2 : j2 < probes) :
    probe_port_checked (dst_port_at start_port probes (h1 - 1)) j1 =
      some (start_port + (h1 - 1) * probes + j1) ∧
    ((h1, j1) ≠ (h2, j2) →
      probe_port_checked (dst_port_at start_port probes (h1 - 1)) j1 ≠
        probe_port_checked (dst_port_at start_port probes (h2 - 1)) j2) := by
  obtain ⟨hp1, hb1⟩ :=
    probe_port_in_range start_port probes max_hops h1 j1 hstart hfit hh1 hh1m hj1
  obtain ⟨hp2, hb2⟩ :=
    probe_port_in_range start_port probes max_hops h2 j2 hstart hfit hh2 hh2m hj2
  refine ⟨hp1, fun hne heq => ?_⟩
  rw [hp1, hp2] at heq
  have heq2 : (h1 - 1) * probes + j1 = (h2 - 1) * probes + j2 := by
    simp only [Option.some.injEq] at heq
    omega
  obtain ⟨hh, hj⟩ := mul_add_inj probes (h1 - 1) (h2 - 1) j1 j2 hj1 hj2 heq2
  have hh12 : h1 = h2 := by omega
  exact hne (by rw [hh12, hj])

/-- Witness for C2 at the default configuration: probe 0 of hop 1 and
probe 1 of hop 2 get the stated, distinct ports. -/
theorem probe_ports_disjoint_w :
    probe_port_checked (dst_port_at 33434 3 (1 - 1)) 0 =
      some (33434 + (1 - 1) * 3 + 0) ∧
    (((1 : Nat), (0 : Nat)) ≠ ((2 : Nat), (1 : Nat)) →
      probe_port_checked (dst_port_at 33434 3 (1 - 1)) 0 ≠
        probe_port_checked (dst_port_at 33434 3 (2 - 1)) 1) :=
  probe_ports_disjoint 33434 3 30 1 0 2 1 (by norm_num) (by norm_num)
    (by norm_num) (by norm_num) (by norm_num) (by norm_num) (by norm_num)
    (by norm_num)

/-- Claim C3 (code bug): a received datagram that is too short should
degrade to `(no address, elapsed time)` without fault. The first two
conjuncts show the degraded outcome for `n = 0` and `n = ip_header_len`
(both genuinely too short to index), as the claim says — but the third
and fourth conjuncts evaluate the code at the boundary case the claim
also covers, `n = ip_header_len + 1` (a 21-byte datagram whose first byte
is `0x45`, so the IPv4 header length is 20): the guard at line 104 admits
it, and the read of `slice[ip_header_len + 1]` at line 106 is out of
bounds, a panic that aborts the hop and the trace instead of degrading.
The guard needed `ip_header_len + 2`. -/
theorem short_datagram_boundary_panic :
    probeStep (ProbeEvent.recv (List.replicate 20 69) 7
      (some (IpAddr.v4 1, 7))) = some (none, some 7) ∧
    probeStep (ProbeEvent.recv [] 7 (some (IpAddr.v4 1, 7))) =
      some (none, some 7) ∧
    probeStep (ProbeEvent.recv (List.replicate 21 69) 7
      (some (IpAddr.v4 1, 7))) = none ∧
    runHop [ProbeEvent.recv (List.replicate 21 69) 7
      (some (IpAddr.v4 1, 7))] = none := by
  decide

/-- Claim C4, counterexample: a host resolving only to IPv6 addresses
takes the generic "Failed to resolve host" branch, not the IPv6-specific
"Only IPv4 is supported" branch, so the claimed distinguishing diagnostic
is never produced. -/
theorem ipv6_only_generic_message_cex :
    startTrace (resolve_host [IpAddr.v6 0]) = StartOutcome.resolveFailure ∧
    startTrace (resolve_host [IpAddr.v6 0]) ≠ StartOutcome.ipv6Diagnostic := by
  decide

/-- Claim C4, amended: a host whose resolution yields only non-IPv4
addresses is reported with the generic resolution-failure diagnostic —
the same message as a host that does not resolve at all — the
IPv6-specific diagnostic is not printed, and the trace does not run. -/
theorem ipv6_only_treated_as_resolution_failure (addrs : List IpAddr)
    (h : ∀ a ∈ addrs, isV4 a = false) :
    startTrace (resolve_host addrs) = StartOutcome.resolveFailure ∧
    (∀ v, startTrace (resolve_host addrs) ≠ StartOutcome.run v) ∧
    startTrace (resolve_host addrs) ≠ StartOutcome.ipv6Diagnostic := by
  rw [resolve_host_none addrs h]
  refine ⟨rfl, fun v h2 => ?_, fun h2 => ?_⟩
  · simp [startTrace] at h2
  · simp [startTrace] at h2

/-- Witness for C4's amended claim on a two-address IPv6-only host. -/
theorem ipv6_only_treated_as_resolution_failure_w :
    startTrace (resolve_host [IpAddr.v6 4, IpAddr.v6 9]) =
      StartOutcome.resolveFailure :=
  (ipv6_only_treated_as_resolution_failure [IpAddr.v6 4, IpAddr.v6 9]
    (by decide)).1

/-- Claim C5, counterexample: with a first probe that timed out and a
second that replied, the code prints `ttl, *, addr, rtt` — the
representative address appears after the first probe's `*`, not
immediately after the TTL as the claim (and the spec's
`<ttl> <addr-or-*> <rtt-or-*>...` format) states. -/
theorem hop_line_addr_position_cex :
    hopLineTokens 1 [(none, none), (some (IpAddr.v4 2), some 5)] =
      [Token.ttl 1, Token.star, Token.addr (IpAddr.v4 2), Token.rtt 5] ∧
    specHopLineTokens 1 [(none, none), (some (IpAddr.v4 2), some 5)] =
      [Token.ttl 1, Token.addr (IpAddr.v4 2), Token.star, Token.rtt 5] ∧
    hopLineTokens 1 [(none, none), (some (IpAddr.v4 2), some 5)] ≠
      specHopLineTokens 1 [(none, none), (some (IpAddr.v4 2), some 5)] := by
  decide

/-- Claim C5, amended: the hop line is the TTL followed by one entry per
probe in probe order, with the representative address spliced in
immediately before the RTT entry of the first probe that carries an
address (each earlier probe contributing `*`), and when no probe carries
an address the line is the TTL followed by one `*` per probe with no
address token at all. -/
theorem hop_line_layout :
    (∀ (t : Nat) (ps1 : List (Option IpAddr × Option Nat)) (a : IpAddr)
        (ms : Nat) (ps2 : List (Option IpAddr × Option Nat)),
      (∀ p ∈ ps1, p.1 = none) →
      hopLineTokens t (ps1 ++ (some a, some ms) :: ps2) =
        Token.ttl t :: (List.replicate ps1.length Token.star ++
          Token.addr a :: Token.rtt ms :: (printHop ps2 (some a)).1)) ∧
    (∀ (t : Nat) (ps : List (Option IpAddr × Option Nat)),
      (∀ p ∈ ps, p.1 = none) →
      hopLineTokens t ps = Token.ttl t :: List.replicate ps.length Token.star) := by
  constructor
  · intro t ps1 a ms ps2 h
    simp only [hopLineTokens,
      printHop_none_run ps1 ((some a, some ms) :: ps2) none h]
    simp [printHop]
  · intro t ps h
    have h2 := printHop_none_run ps [] none h
    simp only [List.append_nil] at h2
    simp [hopLineTokens, h2, printHop]

/-- Witness for C5's amended claim: a timed-out first probe then a
replying second probe. -/
theorem hop_line_layout_w :
    hopLineTokens 3 ([(none, some 9)] ++ (some (IpAddr.v4 2), some 5) :: []) =
      Token.ttl 3 :: (List.replicate 1 Token.star ++
        Token.addr (IpAddr.v4 2) :: Token.rtt 5 ::
          (printHop [] (some (IpAddr.v4 2))).1) :=
  hop_line_layout.1 3 [(none, some 9)] (IpAddr.v4 2) 5 [] (by decide)

/-- Claim C6: a hop run on one event per probe that completes without
panicking records exactly `probes_per_hop` outcomes in each of the two
per-hop vectors, which therefore always have equal length. -/
theorem hop_outcome_count (probes : Nat) (evs : List ProbeEvent)
    (as_ : List (Option IpAddr)) (rs : List (Option Nat))
    (hev : evs.length = probes) (hrun : runHop evs = some (as_, rs)) :
    as_.length = probes ∧ rs.length = probes ∧ as_.length = rs.length := by
  obtain ⟨h1, h2⟩ := runHop_lengths evs as_ rs hrun
  omega

/-- Witness for C6: two probes (a timeout and a send failure) produce
exactly two outcomes in each vector. -/
theorem hop_outcome_count_w :
    ([none, none] : List (Option IpAddr)).length = 2 ∧
    ([none, none] : List (Option Nat)).length = 2 ∧
    ([none, none] : List (Option IpAddr)).length =
      ([none, none] : List (Option Nat)).length :=
  hop_outcome_count 2 [ProbeEvent.timeout, ProbeEvent.sendErr]
    [none, none] [none, none] (by decide) (by decide)

/-- Claim C7, counterexample: with `start_port = 65535` the very first
hop's probe index 1 computes `65535 + 1` by the plain `+` of line 76,
which under Rust's checked-overflow semantics (the default in debug
builds) panics instead of wrapping — so the per-probe computation does
not "wrap on overflow and never fault"; only the release build wraps it
to 0, and only the hop advance of line 170 (`wrapping_add`) wraps in
every build. -/
theorem probe_port_overflow_cex :
    dst_port_at 65535 3 0 = 65535 ∧
    probe_port_checked 65535 1 = none ∧
    probe_port_wrapping 65535 1 = 0 ∧
    advance_port 65535 3 = 2 := by
  decide

/-- Claim C7, amended: for every configuration the per-hop port state
stays in the 16-bit range and advances by `probes` modulo 2^16 without
ever faulting, and the per-probe computation wraps modulo 2^16 under
release (unchecked) semantics; under checked semantics it faults exactly
when the true sum leaves the 16-bit range. -/
theorem port_arithmetic_wraps (start_port probes n j : Nat)
    (hs : start_port < 65536) :
    dst_port_at start_port probes n < 65536 ∧
    dst_port_at start_port probes n = (start_port + n * probes) % 65536 ∧
    probe_port_wrapping (dst_port_at start_port probes n) j =
      (start_port + n * probes + j % 65536) % 65536 ∧
    (probe_port_checked (dst_port_at start_port probes n) j = none ↔
      65536 ≤ (start_port + n * probes) % 65536 + j % 65536) := by
  refine ⟨dst_port_at_lt start_port probes n hs,
    dst_port_at_spec start_port probes hs n, ?_, ?_⟩
  · rw [dst_port_at_spec start_port probes hs n]
    simp only [probe_port_wrapping]
    generalize start_port + n * probes = m
    omega
  · rw [dst_port_at_spec start_port probes hs n]
    simp only [probe_port_checked]
    generalize start_port + n * probes = m
    by_cases hlt : m % 65536 + j % 65536 < 65536
    · rw [if_pos hlt]
      simp only [reduceCtorEq, false_iff]
      omega
    · rw [if_neg hlt]
      simp only [true_iff]
      omega

/-- Witness for C7's amended claim at the overflowing configuration
`start_port = 65535`, hop 1, probe 1. -/
theorem port_arithmetic_wraps_w :
    dst_port_at 65535 1 0 < 65536 ∧
    dst_port_at 65535 1 0 = (65535 + 0 * 1) % 65536 ∧
    probe_port_wrapping (dst_port_at 65535 1 0) 1 =
      (65535 + 0 * 1 + 1 % 65536) % 65536 ∧
    (probe_port_checked (dst_port_at 65535 1 0) 1 = none ↔
      65536 ≤ (65535 + 0 * 1) % 65536 + 1 % 65536) :=
  port_arithmetic_wraps 65535 1 0 1 (by norm_num)

/-- Claim C8: a probe whose receive call times out is recorded as the
timeout outcome — no source address and no RTT — and the hop loop simply
proceeds to the remaining probes: prepending a timeout event to any
successfully completing hop run yields a successful run with exactly one
extra `(none, none)` outcome (one entry, so never retried, and `some`, so
never an abort). -/
theorem timeout_recorded_nonfatal (rest : List ProbeEvent)
    (as_ : List (Option IpAddr)) (rs : List (Option Nat))
    (h : runHop rest = some (as_, rs)) :
    probeStep ProbeEvent.timeout = some (none, none) ∧
    runHop (ProbeEvent.timeout :: rest) = some (none :: as_, none :: rs) := by
  refine ⟨rfl, ?_⟩
  simp only [runHop, probeStep, h]

/-- Witness for C8: a timeout followed by a send failure. -/
theorem timeout_recorded_nonfatal_w :
    probeStep ProbeEvent.timeout = some (none, none) ∧
    runHop [ProbeEvent.timeout, ProbeEvent.sendErr] =
      some ([none, none], [none, none]) :=
  timeout_recorded_nonfatal [ProbeEvent.sendErr] [none] [none] (by decide)

/-- Claim C9: `resolve_host` only ever returns an IPv4 address (its
`find_map` closure maps every non-V4 entry to `None`), so the
`Some(_) => "Only IPv4 is supported"` branch of `run_traceroute_unix` is
unreachable for every input. -/
theorem resolve_host_ipv4_only (addrs : List IpAddr) :
    (∀ a, resolve_host addrs = some a → ∃ v, a = IpAddr.v4 v) ∧
    startTrace (resolve_host addrs) ≠ StartOutcome.ipv6Diagnostic := by
  refine ⟨fun a h => resolve_host_is_v4 addrs a h, ?_⟩
  cases hr : resolve_host addrs with
  | none => simp [startTrace]
  | some a =>
    obtain ⟨v, hv⟩ := resolve_host_is_v4 addrs a hr
    subst hv
    simp [startTrace]

/-- Witness for C9 on a mixed v6-then-v4 resolution result. -/
theorem resolve_host_ipv4_only_w : ∃ v, IpAddr.v4 5 = IpAddr.v4 v :=
  (resolve_host_ipv4_only [IpAddr.v6 1, IpAddr.v4 5]).1 (IpAddr.v4 5)
    (by decide)

/-- Claim C10: the parsed ICMP type and code bytes never influence any
recorded outcome, printed token, or control-flow decision. Probe events
related by `eventMatch` — identical except possibly at datagram bytes
other than the length and header-length nibble, in particular at the
ICMP type and code positions — give identical probe outcomes, identical
per-hop vectors, and identical full-trace output and termination. -/
theorem icmp_type_code_noninterference :
    (∀ e1 e2, eventMatch e1 e2 = true → probeStep e1 = probeStep e2) ∧
    (∀ l1 l2, hopMatch l1 l2 = true → runHop l1 = runHop l2) ∧
    (∀ dest ttl fuel env1 env2, envMatch env1 env2 = true →
      runTraceFrom dest ttl fuel env1 = runTraceFrom dest ttl fuel env2) :=
  ⟨eventMatch_probeStep, hopMatch_runHop, envMatch_runTraceFrom⟩

/-- Witness for C10: two one-hop runs whose reply datagrams differ only
in the ICMP type and code bytes (type 11 code 0, a time-exceeded, versus
type 3 code 3, a port-unreachable) produce identical traces. -/
theorem icmp_type_code_noninterference_w :
    runTraceFrom (IpAddr.v4 4) 1 1
        [[ProbeEvent.recv (69 :: (List.replicate 19 0 ++
          ([11, 0] ++ List.replicate 6 0))) 7 (some (IpAddr.v4 4, 6))]] =
      runTraceFrom (IpAddr.v4 4) 1 1
        [[ProbeEvent.recv (69 :: (List.replicate 19 0 ++
          ([3, 3] ++ List.replicate 6 0))) 7 (some (IpAddr.v4 4, 6))]] :=
  icmp_type_code_noninterference.2.2 (IpAddr.v4 4) 1 1
    [[ProbeEvent.recv (69 :: (List.replicate 19 0 ++
      ([11, 0] ++ List.replicate 6 0))) 7 (some (IpAddr.v4 4, 6))]]
    [[ProbeEvent.recv (69 :: (List.replicate 19 0 ++
      ([3, 3] ++ List.replicate 6 0))) 7 (some (IpAddr.v4 4, 6))]]
    (by decide)

end Winix
